import Mathlib

/-!
# Verification of the SyncDB replication engine

Shallow embedding of `src/syncDB/syncDB.py` and `src/syncDB/queries.py`:
a one-way, table-by-table reconciliation of a source PostgreSQL database
into a target database.  Databases are modelled as explicit catalogs of
`(schema, table-name, table)` entries; SQL values carry an explicit NULL
and SQL equality never holds on NULL; psycopg2 exceptions are modelled by
an explicit error type distinguishing `IntegrityError` from everything
else, mirroring the two `except` arms of `sync_table`.
-/

namespace SyncDB

/-- A SQL value: either NULL or an integer payload standing for any
concrete non-null value. -/
inductive Value where
  | null : Value
  | int : Int → Value
deriving DecidableEq, Repr

/-- SQL equality: `a = b` is true only on equal non-null values; any
comparison against NULL is not true. -/
def sqlEq : Value → Value → Bool
  | Value.int a, Value.int b => a == b
  | _, _ => false

/-- A row is an ordered tuple of column values, positionally aligned with
the column list of the scan that produced it. -/
abbrev Row := List Value

/-- One table's state: its `information_schema.columns` rows (name, data
type), the column order a `SELECT *` returns, the stored rows, and the
primary-key column names reported by `pg_index`. -/
structure DBTable where
  schema : List (String × String)
  cols : List String
  rows : List Row
  pks : List String
deriving DecidableEq, Repr

/-- One entry of a database catalog: the namespace (`table_schema`), the
table name, and the table state. -/
structure CatalogEntry where
  table_schema : String
  table_name : String
  tab : DBTable
deriving DecidableEq, Repr

/-- A database: its catalog of tables across all namespaces. -/
structure DB where
  tables : List CatalogEntry
deriving DecidableEq, Repr

/-- Errors surfaced by database calls, as the two classes `sync_table`
distinguishes: psycopg2 `IntegrityError` versus any other exception. -/
inductive PyErr where
  | integrity : PyErr
  | other : PyErr
deriving DecidableEq, Repr

/-- The log lines the engine emits (identified by call site). -/
inductive Log where
  | infoTableExists (t : String)
  | infoCopiedSchema (t : String)
  | errorNoPrimaryKeys (t : String)
  | infoNoMissingRows (t : String)
  | infoSynced (t : String) (n : Nat)
  | warnIntegrity (t : String)
  | errorUnexpected (t : String)
  | infoAllSynced
  | errorSyncAll
deriving DecidableEq, Repr

/-- Resolution of an unqualified table name in SQL text (`SELECT … FROM t`,
`INSERT INTO t`, `%s::regclass`): the search path finds the table in the
`public` namespace, or the statement fails. -/
def lookupPublic (db : DB) (t : String) : Option DBTable :=
  (db.tables.find? (fun e => e.table_schema == "public" && e.table_name == t)).map
    (fun e => e.tab)

/-- `queries.check_table_exists`: `SELECT EXISTS (SELECT FROM
information_schema.tables WHERE table_name = %s)`.  The filter is on
`table_name` only — no `table_schema` condition — so a match in any
namespace counts. -/
def check_table_exists (db : DB) (t : String) : Bool :=
  db.tables.any (fun e => e.table_name == t)

/-- `queries.get_table_schema`: `SELECT column_name, data_type FROM
information_schema.columns WHERE table_name = %s` — again filtered on the
name only, concatenating the column rows of every same-named table. -/
def get_table_schema (db : DB) (t : String) : List (String × String) :=
  (db.tables.filter (fun e => e.table_name == t)).flatMap (fun e => e.tab.schema)

/-- `queries.fetch_primary_keys` (wrapped by
`PostgresDatabaseSync.get_primary_keys`): `%s::regclass` resolves the name
via the search path and raises if no such relation exists. -/
def fetch_primary_keys (db : DB) (t : String) : Except PyErr (List String) :=
  match lookupPublic db t with
  | some tab => Except.ok tab.pks
  | none => Except.error PyErr.other

/-- `queries.select_all_rows`: raises `ValueError` on an empty table name,
else `SELECT * FROM t` yields the rows and the result's column list. -/
def select_all_rows (db : DB) (t : String) : Except PyErr (List Row × List String) :=
  if t == "" then Except.error PyErr.other
  else
    match lookupPublic db t with
    | some tab => Except.ok (tab.rows, tab.cols)
    | none => Except.error PyErr.other

/-- The WHERE clause built by `queries.construct_where_clause`: the literal
`TRUE`, or a conjunction of one `column = %s` equality per listed column. -/
inductive WhereClause where
  | trueW : WhereClause
  | conjEq : List String → WhereClause
deriving DecidableEq, Repr

/-- `queries.construct_where_clause`: `TRUE` for an empty key list, else
`pk1 = %s AND pk2 = %s AND …` over every listed primary-key column. -/
def construct_where_clause (primary_keys : List String) : WhereClause :=
  if primary_keys.isEmpty then WhereClause.trueW
  else WhereClause.conjEq primary_keys

/-- The value a row holds at a named column, positionally: the value at the
column's first index in the column list (NULL when out of range). -/
def getCol (cols : List String) (r : Row) (k : String) : Value :=
  r.getD (cols.indexOf k) Value.null

/-- Python dict insertion `d[k] = v`: update in place if the key is
present, else append the pair. -/
def dictInsert (d : List (String × Value)) (k : String) (v : Value) :
    List (String × Value) :=
  if d.any (fun p => p.1 == k) then
    d.map (fun p => if p.1 == k then (k, v) else p)
  else d ++ [(k, v)]

/-- The dict comprehension of `get_missing_rows`:
`{pk: row[source_columns.index(pk)] for pk in primary_keys}`.
`.index` raises `ValueError` for a key not in the column list and the
subscript raises `IndexError` past the row's end; both abort the sync. -/
def buildPkDictAux (scols : List String) (r : Row) :
    List (String × Value) → List String → Except PyErr (List (String × Value))
  | d, [] => Except.ok d
  | d, pk :: pks =>
    if scols.contains pk && decide (scols.indexOf pk < r.length) then
      buildPkDictAux scols r (dictInsert d pk (getCol scols r pk)) pks
    else Except.error PyErr.other

/-- The primary-key dict for one source row (see `buildPkDictAux`). -/
def buildPkDict (scols : List String) (r : Row) (pks : List String) :
    Except PyErr (List (String × Value)) :=
  buildPkDictAux scols r [] pks

/-- Execution of the probe `SELECT 1 FROM t WHERE <clause>` with positional
parameters: resolves the table, checks that every referenced column exists
and that the parameter count matches the placeholder count, then reports
whether any stored row satisfies the conjunction under SQL equality. -/
def execProbe (db : DB) (t : String) (wc : WhereClause) (params : List Value) :
    Except PyErr Bool :=
  match lookupPublic db t with
  | none => Except.error PyErr.other
  | some tab =>
    match wc with
    | WhereClause.trueW =>
      if params.isEmpty then Except.ok (!tab.rows.isEmpty)
      else Except.error PyErr.other
    | WhereClause.conjEq ks =>
      if !ks.all (fun k => tab.cols.contains k) then Except.error PyErr.other
      else if ks.length != params.length then Except.error PyErr.other
      else
        Except.ok (tab.rows.any (fun trow =>
          (ks.zip params).all (fun kv => sqlEq (getCol tab.cols trow kv.1) kv.2)))

/-- The per-row probe loop of `PostgresDatabaseSync.get_missing_rows`: for
each source row in scan order, build the primary-key dict, probe the
target with the prepared WHERE clause and the dict's values, and keep the
rows whose probe found nothing. -/
def missingLoop (tgt : DB) (t : String) (scols pks : List String) :
    List Row → Except PyErr (List Row)
  | [] => Except.ok []
  | r :: rs =>
    match buildPkDict scols r pks with
    | Except.error e => Except.error e
    | Except.ok d =>
      match execProbe tgt t (construct_where_clause pks)
          (d.map (fun p => p.2)) with
      | Except.error e => Except.error e
      | Except.ok found =>
        match missingLoop tgt t scols pks rs with
        | Except.error e => Except.error e
        | Except.ok rest => Except.ok (if found then rest else r :: rest)

/-- `PostgresDatabaseSync.get_missing_rows`: fetch the source table's
primary keys; when there are none, log an error and return the pair of
empty lists; else scan all source rows and keep those whose primary-key
probe finds no row in the target.  The second component is the log output.
-/
def get_missing_rows (src tgt : DB) (t : String) :
    Except PyErr (List Row × List String) × List Log :=
  match fetch_primary_keys src t with
  | Except.error e => (Except.error e, [])
  | Except.ok pks =>
    if pks.isEmpty then (Except.ok ([], []), [Log.errorNoPrimaryKeys t])
    else
      match select_all_rows src t with
      | Except.error e => (Except.error e, [])
      | Except.ok (srows, scols) =>
        match missingLoop tgt t scols pks srows with
        | Except.error e => (Except.error e, [])
        | Except.ok missing => (Except.ok (missing, scols), [])

/-- The table `CREATE TABLE t (col1 type1, col2 type2, …)` produces: the
listed (name, type) pairs verbatim, those names as the column order, no
rows, and no primary key (the statement declares no constraint). -/
def createTableFromSchema (schema : List (String × String)) : DBTable :=
  { schema := schema
    cols := schema.map (fun c => c.1)
    rows := []
    pks := [] }

/-- `PostgresDatabaseSync.check_and_create_table`: if the existence check
reports the name absent, create the table in the target (in `public`, the
default creation namespace) from the source-reported column/type list and
commit; otherwise take no action.  Returns the committed target state and
the log output. -/
def check_and_create_table (src tgt : DB) (t : String) : DB × List Log :=
  if check_table_exists tgt t then (tgt, [Log.infoTableExists t])
  else
    ({ tables := tgt.tables ++
        [⟨"public", t, createTableFromSchema (get_table_schema src t)⟩] },
      [Log.infoCopiedSchema t])

/-- The statement `queries.insert_missing_rows` builds:
`INSERT INTO table (columns…) VALUES %s ON CONFLICT DO NOTHING`. -/
structure InsertStmt where
  table : String
  columns : List String
  onConflictDoNothing : Bool
deriving DecidableEq, Repr

/-- `queries.insert_missing_rows`: the bulk insert statement, always with
the `ON CONFLICT DO NOTHING` policy. -/
def insert_missing_rows (table_name : String) (columns : List String) : InsertStmt :=
  ⟨table_name, columns, true⟩

/-- Whether two stored rows collide on the table's primary key: the key
set is nonempty and every key column agrees under SQL equality (so a NULL
never collides). -/
def rowsConflict (tab : DBTable) (r1 r2 : Row) : Bool :=
  !tab.pks.isEmpty &&
    tab.pks.all (fun k => sqlEq (getCol tab.cols r1 k) (getCol tab.cols r2 k))

/-- Insertion of one already-aligned row under `ON CONFLICT DO NOTHING`:
appended unless it collides with a stored row, in which case it is
silently dropped. -/
def insertOne (tab : DBTable) (r : Row) : DBTable :=
  if tab.rows.any (fun e => rowsConflict tab e r) then tab
  else { tab with rows := tab.rows ++ [r] }

/-- A supplied row widened to the table's full column order: listed columns
take their positional value, unlisted columns take NULL. -/
def alignRow (cols tabCols : List String) (r : Row) : Row :=
  tabCols.map (fun c =>
    if cols.contains c then r.getD (cols.indexOf c) Value.null else Value.null)

/-- Sequential do-nothing insertion of a batch of rows (each aligned to the
table's column order first), as one `VALUES` list executes. -/
def insFold (cols : List String) (tb : DBTable) : List Row → DBTable
  | [] => tb
  | r :: rs => insFold cols (insertOne tb (alignRow cols tb.cols r)) rs

/-- Strict sequential insertion (no conflict clause): a colliding row
raises `IntegrityError` instead of being dropped. -/
def insFoldStrict (cols : List String) (tb : DBTable) :
    List Row → Except PyErr DBTable
  | [] => Except.ok tb
  | r :: rs =>
    if tb.rows.any (fun e => rowsConflict tb e (alignRow cols tb.cols r)) then
      Except.error PyErr.integrity
    else
      insFoldStrict cols { tb with rows := tb.rows ++ [alignRow cols tb.cols r] } rs

/-- The effect of DML against the resolved table `public.t`: the catalog
entry for that table is replaced by its updated state. -/
def updatePublic (db : DB) (t : String) (tb : DBTable) : DB :=
  { tables := db.tables.map (fun e =>
      if e.table_schema == "public" && e.table_name == t then
        { e with tab := tb }
      else e) }

/-- `psycopg2.extras.execute_values` running an insert statement: resolves
the table, rejects unknown or duplicated column names and arity
mismatches, then inserts the batch — dropping collisions when the
statement carries `ON CONFLICT DO NOTHING`, raising `IntegrityError`
otherwise. -/
def execute_values (db : DB) (stmt : InsertStmt) (rows : List Row) :
    Except PyErr DB :=
  match lookupPublic db stmt.table with
  | none => Except.error PyErr.other
  | some tab =>
    if !stmt.columns.all (fun c => tab.cols.contains c) then
      Except.error PyErr.other
    else if !decide stmt.columns.Nodup then Except.error PyErr.other
    else if !rows.all (fun r => r.length == stmt.columns.length) then
      Except.error PyErr.other
    else if stmt.onConflictDoNothing then
      Except.ok (updatePublic db stmt.table (insFold stmt.columns tab rows))
    else
      match insFoldStrict stmt.columns tab rows with
      | Except.error e => Except.error e
      | Except.ok tab2 => Except.ok (updatePublic db stmt.table tab2)

/-- Outcome of one `sync_table` call: the committed target state when the
call returns or propagates, the log lines emitted, and the exception the
call re-raised, if any. -/
structure SyncResult where
  target : DB
  logs : List Log
  raised : Option PyErr
deriving DecidableEq, Repr

/-- The two `except` arms of `sync_table`, entered with the target rolled
back to its last committed state: `IntegrityError` logs a warning and
returns normally; any other exception logs an error and re-raises. -/
def handleSyncError (t : String) (tgt : DB) (logs : List Log) :
    PyErr → SyncResult
  | PyErr.integrity => ⟨tgt, logs ++ [Log.warnIntegrity t], none⟩
  | PyErr.other => ⟨tgt, logs ++ [Log.errorUnexpected t], some PyErr.other⟩

/-- `PostgresDatabaseSync.sync_table`: ensure the target table exists
(committed on its own), diff, and bulk-insert the missing rows with the
do-nothing-on-conflict statement, committing on success.  `oracle`
injects the exception, if any, the database raises during the bulk insert
(e.g. a constraint violation outside the modelled state); `none` is the
run in which the database raises nothing of its own. -/
def sync_table (oracle : Option PyErr) (src tgt : DB) (t : String) : SyncResult :=
  let created := check_and_create_table src tgt t
  match get_missing_rows src created.1 t with
  | (Except.error e, logs2) => handleSyncError t created.1 (created.2 ++ logs2) e
  | (Except.ok (missing, scols), logs2) =>
    if missing.isEmpty then
      ⟨created.1, created.2 ++ logs2 ++ [Log.infoNoMissingRows t], none⟩
    else
      match oracle with
      | some e => handleSyncError t created.1 (created.2 ++ logs2) e
      | none =>
        match execute_values created.1 (insert_missing_rows t scols) missing with
        | Except.error e => handleSyncError t created.1 (created.2 ++ logs2) e
        | Except.ok tgt2 =>
          ⟨tgt2, created.2 ++ logs2 ++ [Log.infoSynced t missing.length], none⟩

/-- The per-table loop of `sync_all_tables`: each table is synced in
catalog order; the first re-raised exception is logged by the surrounding
handler and propagates, abandoning the remaining tables. -/
def syncTablesLoop (oracle : String → Option PyErr) (src : DB) :
    DB → List Log → List String → SyncResult
  | tgt, logs, [] => ⟨tgt, logs ++ [Log.infoAllSynced], none⟩
  | tgt, logs, t :: ts =>
    let r := sync_table (oracle t) src tgt t
    match r.raised with
    | some e => ⟨r.target, logs ++ r.logs ++ [Log.errorSyncAll], some e⟩
    | none => syncTablesLoop oracle src r.target (logs ++ r.logs) ts

/-- The table list `sync_all_tables` enumerates: `SELECT table_name FROM
information_schema.tables WHERE table_schema = 'public'` on the source. -/
def sourcePublicTables (src : DB) : List String :=
  (src.tables.filter (fun e => e.table_schema == "public")).map
    (fun e => e.table_name)

/-- `PostgresDatabaseSync.sync_all_tables`: sync every public source table
in catalog order under the orchestrator's try/except. -/
def sync_all_tables (oracle : String → Option PyErr) (src tgt : DB) : SyncResult :=
  syncTablesLoop oracle src tgt [] (sourcePublicTables src)

/-- The open/closed state of the run's two connections. -/
structure Connections where
  source_open : Bool
  target_open : Bool
deriving DecidableEq, Repr

/-- `PostgresDatabaseSync.close_connections`: closes the source connection,
then the target connection (the attributes always hold live connection
objects, so both `if` guards pass). -/
def close_connections (c : Connections) : Connections :=
  { c with source_open := false, target_open := false }

/-- The externally visible steps `src/__init__.py` can take, in order. -/
inductive MainAction where
  | loadConfig (path : String)
  | connectDb (which : String)
  | syncAllTables
  | closeConnections
deriving DecidableEq, Repr

/-- The action trace of `main()`: load the two env configs, connect target
then source (constructor order in `PostgresDatabaseSync.__init__`), and run
`sync_all_tables`.  Every exit path of `main` — normal return or an
exception escaping any step — executes a prefix of this list; no step
invokes `close_connections`. -/
def mainActions : List MainAction :=
  [ MainAction.loadConfig ".environments/.env.production",
    MainAction.loadConfig ".environments/.env.development",
    MainAction.connectDb "target",
    MainAction.connectDb "source",
    MainAction.syncAllTables ]

/-- Whether a row of the source scan is present in a target table keyed by
the given primary-key columns: some stored target row agrees with it on
every key column under SQL equality (key values read positionally from
each side's own column list). -/
def presentKeyedB (tab : DBTable) (scols pks : List String) (r : Row) : Bool :=
  tab.rows.any (fun trow =>
    pks.all (fun k => sqlEq (getCol tab.cols trow k) (getCol scols r k)))

/-- Whether two rows of the same table agree on every listed key column
under SQL equality. -/
def pkMatchB (cols pks : List String) (r1 r2 : Row) : Bool :=
  pks.all (fun k => sqlEq (getCol cols r1 k) (getCol cols r2 k))

/-- Example fixture: a `users(id int primary key, name text)` table holding
two rows, as in the spec's end-to-end scenario. -/
def usersTable : DBTable :=
  { schema := [("id", "integer"), ("name", "text")]
    cols := ["id", "name"]
    rows := [[Value.int 1, Value.int 10], [Value.int 2, Value.int 20]]
    pks := ["id"] }

/-- Example fixture: a source database whose public namespace holds
`users`. -/
def exSrc : DB := DB.mk [CatalogEntry.mk "public" "users" usersTable]

/-- Example fixture: an empty target database. -/
def exTgt : DB := DB.mk []

/-- Example fixture: a target whose `users` table already holds a row with
primary key 1 but a different non-key value. -/
def exTgtPre : DB :=
  DB.mk [CatalogEntry.mk "public" "users"
    { schema := [("id", "integer"), ("name", "text")]
      cols := ["id", "name"]
      rows := [[Value.int 1, Value.int 99]]
      pks := ["id"] }]

/-- Example fixture: a source table with no primary key. -/
def noPkTable : DBTable :=
  { schema := [("a", "integer")]
    cols := ["a"]
    rows := [[Value.int 5]]
    pks := [] }

/-- Example fixture: a source database whose public namespace holds the
keyless table `t0`. -/
def exSrcNoPk : DB := DB.mk [CatalogEntry.mk "public" "t0" noPkTable]

/-- Example fixture: a target whose only `users` table lives in the
non-public `audit` namespace. -/
def exTgtAudit : DB := DB.mk [CatalogEntry.mk "audit" "users" usersTable]

/-! ## Basic lemmas -/

theorem sqlEq_iff (a b : Value) :
    sqlEq a b = true ↔ ∃ n : Int, a = Value.int n ∧ b = Value.int n := by
  cases a <;> cases b <;> simp [sqlEq]
  exact eq_comm

theorem sqlEq_self (a : Value) (h : a ≠ Value.null) : sqlEq a a = true := by
  cases a with
  | null => exact absurd rfl h
  | int n => simp [sqlEq]

theorem getD_map_indexOf (f : String → Value) (l : List String) (k : String)
    (hk : k ∈ l) : (l.map f).getD (l.indexOf k) Value.null = f k := by
  induction l with
  | nil => cases hk
  | cons c cs ih =>
    by_cases hc : c = k
    · subst hc
      simp [List.indexOf_cons_self]
    · have hk' : k ∈ cs := by
        cases hk with
        | head => exact absurd rfl hc
        | tail _ h => exact h
      have : (c :: cs).indexOf k = cs.indexOf k + 1 := by
        simp [List.indexOf_cons, hc]
      rw [this]
      simp only [List.map_cons, List.getD_cons_succ]
      exact ih hk'

theorem getCol_alignRow (cols tabCols : List String) (r : Row) (k : String)
    (hk : k ∈ tabCols) (hc : cols.contains k = true) :
    getCol tabCols (alignRow cols tabCols r) k = getCol cols r k := by
  unfold getCol alignRow
  rw [getD_map_indexOf _ tabCols k hk, hc]
  simp

theorem dictInsert_fresh (d : List (String × Value)) (k : String) (v : Value)
    (h : ∀ p ∈ d, p.1 ≠ k) : dictInsert d k v = d ++ [(k, v)] := by
  unfold dictInsert
  have : d.any (fun p => p.1 == k) = false := by
    simp only [List.any_eq_false]
    intro p hp
    simp [h p hp]
  simp [this]

theorem buildPkDictAux_spec (scols : List String) (r : Row) (pks : List String)
    (hnd : pks.Nodup)
    (hin : ∀ k ∈ pks, scols.contains k = true ∧ scols.indexOf k < r.length) :
    ∀ d : List (String × Value), (∀ p ∈ d, p.1 ∉ pks) →
      buildPkDictAux scols r d pks =
        Except.ok (d ++ pks.map (fun k => (k, getCol scols r k))) := by
  induction pks with
  | nil => intro d _; simp [buildPkDictAux]
  | cons k ks ih =>
    intro d hd
    have hk := hin k (List.mem_cons_self k ks)
    unfold buildPkDictAux
    rw [hk.1]
    simp only [Bool.true_and, decide_eq_true_eq, if_pos hk.2]
    have hfresh : ∀ p ∈ d, p.1 ≠ k := fun p hp =>
      fun he => hd p hp (he ▸ List.mem_cons_self k ks)
    rw [dictInsert_fresh d k _ hfresh]
    have hnd' : ks.Nodup := hnd.of_cons
    have hin' : ∀ k' ∈ ks, scols.contains k' = true ∧ scols.indexOf k' < r.length :=
      fun k' hk' => hin k' (List.mem_cons_of_mem k hk')
    have hd' : ∀ p ∈ d ++ [(k, getCol scols r k)], p.1 ∉ ks := by
      intro p hp
      rcases List.mem_append.1 hp with h1 | h1
      · exact fun hm => hd p h1 (List.mem_cons_of_mem k hm)
      · simp at h1
        rw [h1]
        simp
        exact (List.nodup_cons.1 hnd).1
    rw [ih hnd' hin' (d ++ [(k, getCol scols r k)]) hd']
    simp

theorem buildPkDict_spec (scols : List String) (r : Row) (pks : List String)
    (hnd : pks.Nodup)
    (hin : ∀ k ∈ pks, scols.contains k = true ∧ scols.indexOf k < r.length) :
    buildPkDict scols r pks =
      Except.ok (pks.map (fun k => (k, getCol scols r k))) := by
  have := buildPkDictAux_spec scols r pks hnd hin [] (by simp)
  simpa [buildPkDict] using this

theorem zip_self_map (l : List String) (g : String → Value) :
    l.zip (l.map g) = l.map (fun k => (k, g k)) := by
  induction l with
  | nil => rfl
  | cons a as ih => simp [ih]

/-! ## Specification of the diff loop -/

theorem execProbe_conj_spec (tgt : DB) (t : String) (tab : DBTable)
    (pks : List String) (r : Row) (scols : List String)
    (htab : lookupPublic tgt t = some tab)
    (htpc : ∀ k ∈ pks, tab.cols.contains k = true) :
    execProbe tgt t (WhereClause.conjEq pks)
        ((pks.map (fun k => (k, getCol scols r k))).map (fun p => p.2)) =
      Except.ok (presentKeyedB tab scols pks r) := by
  have hall : pks.all (fun k => tab.cols.contains k) = true :=
    List.all_eq_true.2 htpc
  have hzip : pks.zip (pks.map (fun k => getCol scols r k)) =
      pks.map (fun k => (k, getCol scols r k)) :=
    zip_self_map pks (fun k => getCol scols r k)
  simp only [execProbe, htab, hall, Bool.not_true, Bool.false_eq_true,
    if_false, List.map_map, Function.comp_def, List.length_map,
    bne_self_eq_false, hzip, presentKeyedB]
  congr 1
  apply congrArg
  funext trow
  induction pks with
  | nil => rfl
  | cons k ks ihp => simp_all

theorem missingLoop_spec (tgt : DB) (t : String) (tab : DBTable)
    (scols pks : List String)
    (htab : lookupPublic tgt t = some tab)
    (hpk : pks ≠ [])
    (hnd : pks.Nodup)
    (hpkc : ∀ k ∈ pks, scols.contains k = true)
    (htpc : ∀ k ∈ pks, tab.cols.contains k = true) :
    ∀ srows : List Row, (∀ r ∈ srows, r.length = scols.length) →
      missingLoop tgt t scols pks srows =
        Except.ok (srows.filter (fun r => !presentKeyedB tab scols pks r)) := by
  intro srows
  induction srows with
  | nil => intro _; rfl
  | cons r rs ih =>
    intro hlen
    have hr : r.length = scols.length := hlen r (List.mem_cons_self r rs)
    have hin : ∀ k ∈ pks, scols.contains k = true ∧ scols.indexOf k < r.length := by
      intro k hk
      refine ⟨hpkc k hk, ?_⟩
      rw [hr]
      exact List.indexOf_lt_length.2 (List.mem_of_elem_eq_true (hpkc k hk))
    have hwc : construct_where_clause pks = WhereClause.conjEq pks := by
      have hne : pks.isEmpty = false := by
        cases pks with
        | nil => exact absurd rfl hpk
        | cons a as => rfl
      simp [construct_where_clause, hne]
    simp only [missingLoop, buildPkDict_spec scols r pks hnd hin, hwc,
      execProbe_conj_spec tgt t tab pks r scols htab htpc,
      ih (fun x hx => hlen x (List.mem_cons_of_mem r hx)), List.filter_cons]
    cases hfound : presentKeyedB tab scols pks r <;> simp [hfound]

/-- With a nonempty, duplicate-free primary key whose columns appear in
both sides' column lists, the diff returns exactly the source rows not yet
present in the target (in scan order) together with the scanned column
list, and logs nothing. -/
theorem get_missing_rows_spec (src tgt : DB) (t : String) (stab tab : DBTable)
    (ht : t ≠ "")
    (hsrc : lookupPublic src t = some stab)
    (hpk : stab.pks ≠ [])
    (hnd : stab.pks.Nodup)
    (hpkc : ∀ k ∈ stab.pks, stab.cols.contains k = true)
    (hlen : ∀ r ∈ stab.rows, r.length = stab.cols.length)
    (htab : lookupPublic tgt t = some tab)
    (htpc : ∀ k ∈ stab.pks, tab.cols.contains k = true) :
    get_missing_rows src tgt t =
      (Except.ok (stab.rows.filter
          (fun r => !presentKeyedB tab stab.cols stab.pks r), stab.cols), []) := by
  have hfetch : fetch_primary_keys src t = Except.ok stab.pks := by
    simp [fetch_primary_keys, hsrc]
  have hempty : stab.pks.isEmpty = false := by
    cases h : stab.pks with
    | nil => exact absurd h hpk
    | cons a as => rfl
  have hteq : (t == "") = false := by
    simp [ht]
  have hsel : select_all_rows src t = Except.ok (stab.rows, stab.cols) := by
    simp [select_all_rows, hteq, hsrc]
  simp only [get_missing_rows, hfetch, hempty, Bool.false_eq_true, if_false,
    hsel, missingLoop_spec tgt t tab stab.cols stab.pks htab hpk hnd hpkc
      htpc stab.rows hlen]

/-- A successful public lookup means the name passes the existence check. -/
theorem check_table_exists_of_lookup (db : DB) (t : String) (tab : DBTable)
    (h : lookupPublic db t = some tab) : check_table_exists db t = true := by
  unfold lookupPublic at h
  cases hf : db.tables.find? (fun e =>
      e.table_schema == "public" && e.table_name == t) with
  | none => rw [hf] at h; cases h
  | some e =>
    have hmem := List.mem_of_find?_eq_some hf
    have hpred := List.find?_some hf
    unfold check_table_exists
    rw [List.any_eq_true]
    refine ⟨e, hmem, ?_⟩
    rw [Bool.and_eq_true] at hpred
    exact hpred.2

theorem find_cons_pos (p : CatalogEntry → Bool) (x : CatalogEntry)
    (xs : List CatalogEntry) (h : p x = true) :
    (x :: xs).find? p = some x := by
  simp [List.find?, h]

theorem find_cons_neg (p : CatalogEntry → Bool) (x : CatalogEntry)
    (xs : List CatalogEntry) (h : p x = false) :
    (x :: xs).find? p = xs.find? p := by
  simp [List.find?, h]

theorem find_append_fresh (l : List CatalogEntry) (t : String) (tb : DBTable)
    (hall : ∀ e ∈ l, (e.table_name == t) = false) :
    (l ++ [CatalogEntry.mk "public" t tb]).find?
        (fun e => e.table_schema == "public" && e.table_name == t) =
      some (CatalogEntry.mk "public" t tb) := by
  induction l with
  | nil => simp [List.find?]
  | cons e es ih =>
    have he : (e.table_name == t) = false := hall e (List.mem_cons_self e es)
    have hp : (fun e : CatalogEntry =>
        e.table_schema == "public" && e.table_name == t) e = false := by
      simp [he]
    rw [List.cons_append,
      find_cons_neg (fun e => e.table_schema == "public" && e.table_name == t)
        e (es ++ [CatalogEntry.mk "public" t tb]) hp]
    exact ih (fun x hx => hall x (List.mem_cons_of_mem e hx))

/-- If the existence check fails, resolving the name after appending the
freshly created public entry finds exactly that entry. -/
theorem lookupPublic_after_create (tgt : DB) (t : String) (tb : DBTable)
    (h : check_table_exists tgt t = false) :
    lookupPublic (DB.mk (tgt.tables ++ [CatalogEntry.mk "public" t tb])) t =
      some tb := by
  have hall : ∀ e ∈ tgt.tables, (e.table_name == t) = false := by
    intro e he
    by_contra hc
    have hx : check_table_exists tgt t = true := by
      unfold check_table_exists
      rw [List.any_eq_true]
      exact ⟨e, he, by simpa using hc⟩
    rw [hx] at h
    cases h
  unfold lookupPublic
  rw [show (DB.mk (tgt.tables ++ [CatalogEntry.mk "public" t tb])).tables =
      tgt.tables ++ [CatalogEntry.mk "public" t tb] from rfl]
  rw [find_append_fresh tgt.tables t tb hall]
  rfl

theorem find_after_update (t : String) (tb : DBTable) (l : List CatalogEntry) :
    ∀ e : CatalogEntry,
      l.find? (fun x => x.table_schema == "public" && x.table_name == t) = some e →
      (l.map (fun x =>
          if x.table_schema == "public" && x.table_name == t then
            { x with tab := tb } else x)).find?
        (fun x => x.table_schema == "public" && x.table_name == t) =
        some { e with tab := tb } := by
  induction l with
  | nil => intro e h; simp [List.find?] at h
  | cons x xs ih =>
    intro e h
    by_cases hp : (x.table_schema == "public" && x.table_name == t) = true
    · rw [find_cons_pos (fun x => x.table_schema == "public" && x.table_name == t)
        x xs hp] at h
      have hex : x = e := by
        injection h
      subst hex
      simp only [List.map_cons, if_pos hp]
      exact find_cons_pos _ _ _ (by simpa using hp)
    · have hp' : (fun x : CatalogEntry =>
          x.table_schema == "public" && x.table_name == t) x = false :=
        Bool.eq_false_iff.2 hp
      rw [find_cons_neg (fun x => x.table_schema == "public" && x.table_name == t)
        x xs hp'] at h
      simp only [List.map_cons, if_neg hp]
      rw [find_cons_neg (fun x => x.table_schema == "public" && x.table_name == t)
        x _ hp']
      exact ih e h

/-- Updating the public entry for `t` makes subsequent resolution of `t`
see the updated table, provided the entry exists. -/
theorem lookupPublic_updatePublic (db : DB) (t : String) (tab tb : DBTable)
    (h : lookupPublic db t = some tab) :
    lookupPublic (updatePublic db t tb) t = some tb := by
  unfold lookupPublic at h
  cases hf : db.tables.find? (fun e =>
      e.table_schema == "public" && e.table_name == t) with
  | none => rw [hf] at h; cases h
  | some e =>
    unfold lookupPublic updatePublic
    rw [find_after_update t tb db.tables e hf]
    rfl

/-! ## Insert lemmas -/

theorem insertOne_fields (tab : DBTable) (r : Row) :
    (insertOne tab r).cols = tab.cols ∧ (insertOne tab r).pks = tab.pks ∧
      (insertOne tab r).schema = tab.schema := by
  unfold insertOne
  by_cases h : tab.rows.any (fun e => rowsConflict tab e r) = true <;> simp [h]

theorem insFold_fields (cols : List String) (l : List Row) :
    ∀ tb : DBTable, (insFold cols tb l).cols = tb.cols ∧
      (insFold cols tb l).pks = tb.pks ∧ (insFold cols tb l).schema = tb.schema := by
  induction l with
  | nil => intro tb; exact ⟨rfl, rfl, rfl⟩
  | cons r rs ih =>
    intro tb
    have h1 := insertOne_fields tb (alignRow cols tb.cols r)
    have h2 := ih (insertOne tb (alignRow cols tb.cols r))
    unfold insFold
    exact ⟨h2.1.trans h1.1, h2.2.1.trans h1.2.1, h2.2.2.trans h1.2.2⟩

theorem insertOne_rows (tab : DBTable) (r : Row) :
    (insertOne tab r).rows = tab.rows ∨ (insertOne tab r).rows = tab.rows ++ [r] := by
  unfold insertOne
  by_cases h : tab.rows.any (fun e => rowsConflict tab e r) = true <;> simp [h]

/-- The batch insert only appends: the prior rows survive in place, and
every appended row is the aligned image of some batch row. -/
theorem insFold_rows (cols : List String) (l : List Row) :
    ∀ tb : DBTable, ∃ ext : List Row,
      (insFold cols tb l).rows = tb.rows ++ ext ∧
      ∀ x ∈ ext, ∃ m ∈ l, x = alignRow cols tb.cols m := by
  induction l with
  | nil => intro tb; exact ⟨[], by simp [insFold], by simp⟩
  | cons r rs ih =>
    intro tb
    have hc := insertOne_fields tb (alignRow cols tb.cols r)
    rcases ih (insertOne tb (alignRow cols tb.cols r)) with ⟨ext, hrows, hsrc⟩
    rcases insertOne_rows tb (alignRow cols tb.cols r) with h1 | h1
    · refine ⟨ext, ?_, ?_⟩
      · unfold insFold
        rw [hrows, h1]
      · intro x hx
        rcases hsrc x hx with ⟨m, hm, hxm⟩
        exact ⟨m, List.mem_cons_of_mem r hm, by rw [hxm, hc.1]⟩
    · refine ⟨alignRow cols tb.cols r :: ext, ?_, ?_⟩
      · unfold insFold
        rw [hrows, h1]
        simp
      · intro x hx
        cases hx with
        | head => exact ⟨r, List.mem_cons_self r rs, rfl⟩
        | tail _ hx' =>
          rcases hsrc x hx' with ⟨m, hm, hxm⟩
          exact ⟨m, List.mem_cons_of_mem r hm, by rw [hxm, hc.1]⟩

/-- A row present keyed by primary key stays present through any batch
insert. -/
theorem presentKeyedB_insFold_mono (cols : List String) (l : List Row)
    (tb : DBTable) (scols pks : List String) (r : Row)
    (h : presentKeyedB tb scols pks r = true) :
    presentKeyedB (insFold cols tb l) scols pks r = true := by
  rcases insFold_rows cols l tb with ⟨ext, hrows, _⟩
  unfold presentKeyedB at h ⊢
  rw [(insFold_fields cols l tb).1, hrows, List.any_append, h]
  simp

/-- After the batch insert, every batch row is present in the table keyed
by the given key columns — either it was freshly appended (aligned, which
preserves the key columns), or it collided with a stored row that agrees
with it on the table's primary key, which contains the given columns. -/
theorem insFold_present (cols : List String) (spks : List String) (l : List Row) :
    ∀ tb : DBTable,
      (∀ k ∈ spks, k ∈ tb.cols) →
      (∀ k ∈ spks, cols.contains k = true) →
      (spks ⊆ tb.pks ∨ tb.pks = []) →
      ∀ r ∈ l, (∀ k ∈ spks, getCol cols r k ≠ Value.null) →
        presentKeyedB (insFold cols tb l) cols spks r = true := by
  induction l with
  | nil => intro tb _ _ _ r hr; cases hr
  | cons r0 rs ih =>
    intro tb htc hcc hpk r hr hnn
    have hfield := insertOne_fields tb (alignRow cols tb.cols r0)
    cases hr with
    | tail _ hr' =>
      refine ih (insertOne tb (alignRow cols tb.cols r0)) ?_ hcc ?_ r hr' hnn
      · intro k hk
        rw [hfield.1]
        exact htc k hk
      · rw [hfield.2.1]
        exact hpk
    | head =>
      have hpres : presentKeyedB (insertOne tb (alignRow cols tb.cols r0)) cols
          spks r0 = true := by
        unfold insertOne
        by_cases hcf : tb.rows.any
            (fun e => rowsConflict tb e (alignRow cols tb.cols r0)) = true
        · rw [if_pos hcf]
          rw [List.any_eq_true] at hcf
          rcases hcf with ⟨e, he, hconf⟩
          unfold rowsConflict at hconf
          rw [Bool.and_eq_true] at hconf
          have hagree := List.all_eq_true.1 hconf.2
          have hpks : spks ⊆ tb.pks := by
            rcases hpk with h | h
            · exact h
            · rw [h] at hconf
              simp at hconf
          unfold presentKeyedB
          rw [List.any_eq_true]
          refine ⟨e, he, ?_⟩
          rw [List.all_eq_true]
          intro k hk
          have := hagree k (hpks hk)
          rwa [getCol_alignRow cols tb.cols r0 k (htc k hk) (hcc k hk)] at this
        · rw [if_neg hcf]
          unfold presentKeyedB
          rw [List.any_eq_true]
          refine ⟨alignRow cols tb.cols r0, by simp, ?_⟩
          rw [List.all_eq_true]
          intro k hk
          rw [getCol_alignRow cols tb.cols r0 k (htc k hk) (hcc k hk)]
          exact sqlEq_self _ (hnn k hk)
      unfold insFold
      exact presentKeyedB_insFold_mono cols rs _ cols spks r0 hpres

/-! ## The sync step -/

/-- A bulk insert carrying `ON CONFLICT DO NOTHING` never raises
`IntegrityError`: its failures are all of the other class. -/
theorem execute_values_dn_no_integrity (db : DB) (t : String)
    (cols : List String) (rows : List Row) (e : PyErr)
    (h : execute_values db (insert_missing_rows t cols) rows = Except.error e) :
    e = PyErr.other := by
  simp only [execute_values, insert_missing_rows] at h
  cases hl : lookupPublic db t with
  | none =>
    simp only [hl] at h
    injection h with h'
    exact h'.symm
  | some tab =>
    simp only [hl] at h
    by_cases h1 : (!cols.all fun c => tab.cols.contains c) = true
    · rw [if_pos h1] at h
      injection h with h'
      exact h'.symm
    · rw [if_neg h1] at h
      by_cases h2 : (!decide cols.Nodup) = true
      · rw [if_pos h2] at h
        injection h with h'
        exact h'.symm
      · rw [if_neg h2] at h
        by_cases h3 : (!rows.all fun r => r.length == cols.length) = true
        · rw [if_pos h3] at h
          injection h with h'
          exact h'.symm
        · rw [if_neg h3] at h
          simp at h

/-- Inversion of a successful do-nothing bulk insert: the resulting state
is the batch folded into the resolved table. -/
theorem execute_values_dn_ok (db : DB) (t : String) (cols : List String)
    (rows : List Row) (tab : DBTable) (db2 : DB)
    (htab : lookupPublic db t = some tab)
    (h : execute_values db (insert_missing_rows t cols) rows = Except.ok db2) :
    db2 = updatePublic db t (insFold cols tab rows) := by
  simp only [execute_values, insert_missing_rows, htab] at h
  by_cases h1 : (!cols.all fun c => tab.cols.contains c) = true
  · rw [if_pos h1] at h; cases h
  · rw [if_neg h1] at h
    by_cases h2 : (!decide cols.Nodup) = true
    · rw [if_pos h2] at h; cases h
    · rw [if_neg h2] at h
      by_cases h3 : (!rows.all fun r => r.length == cols.length) = true
      · rw [if_pos h3] at h; cases h
      · rw [if_neg h3] at h
        simp at h
        exact h.symm

/-- Workhorse for the inclusion and idempotence claims: when the engine's
own semantics raises nothing and `sync_table` returns without re-raising,
the target's table for `t` ends up containing every source row keyed by
the source primary key.  The hypotheses are the data-model invariants of a
real table: nonempty duplicate-free key contained in both column lists,
rows as wide as the column list, non-null key values, and a target key
that is no weaker than the source key (the freshly created table, having
no key at all, satisfies the second disjunct). -/
theorem sync_table_presence (src tgt : DB) (t : String) (stab tab : DBTable)
    (ht : t ≠ "")
    (hsrc : lookupPublic src t = some stab)
    (hpk : stab.pks ≠ [])
    (hnd : stab.pks.Nodup)
    (hpkc : ∀ k ∈ stab.pks, stab.cols.contains k = true)
    (hlen : ∀ r ∈ stab.rows, r.length = stab.cols.length)
    (hnn : ∀ r ∈ stab.rows, ∀ k ∈ stab.pks, getCol stab.cols r k ≠ Value.null)
    (htab : lookupPublic (check_and_create_table src tgt t).1 t = some tab)
    (htpc : ∀ k ∈ stab.pks, tab.cols.contains k = true)
    (htpk : stab.pks ⊆ tab.pks ∨ tab.pks = [])
    (hr : (sync_table none src tgt t).raised = none) :
    ∃ tab2 : DBTable,
      lookupPublic (sync_table none src tgt t).target t = some tab2 ∧
      tab2.cols = tab.cols ∧ tab2.pks = tab.pks ∧
      ∀ r ∈ stab.rows, presentKeyedB tab2 stab.cols stab.pks r = true := by
  have hgm := get_missing_rows_spec src (check_and_create_table src tgt t).1 t
    stab tab ht hsrc hpk hnd hpkc hlen htab htpc
  by_cases hemp : (stab.rows.filter
      (fun r => !presentKeyedB tab stab.cols stab.pks r)).isEmpty = true
  · have hnil : stab.rows.filter
        (fun r => !presentKeyedB tab stab.cols stab.pks r) = [] := by
      rwa [List.isEmpty_iff] at hemp
    have hsync : sync_table none src tgt t =
        ⟨(check_and_create_table src tgt t).1,
          (check_and_create_table src tgt t).2 ++ [] ++ [Log.infoNoMissingRows t],
          none⟩ := by
      simp only [sync_table, hgm, hemp, if_true]
    refine ⟨tab, ?_, rfl, rfl, ?_⟩
    · rw [hsync]
      exact htab
    · intro r hrr
      have := List.filter_eq_nil_iff.1 hnil r hrr
      simpa using this
  · have hemp' : (stab.rows.filter
        (fun r => !presentKeyedB tab stab.cols stab.pks r)).isEmpty = false :=
      Bool.eq_false_iff.2 hemp
    cases hexec : execute_values (check_and_create_table src tgt t).1
        (insert_missing_rows t stab.cols)
        (stab.rows.filter (fun r => !presentKeyedB tab stab.cols stab.pks r)) with
    | error e =>
      exfalso
      have he : e = PyErr.other :=
        execute_values_dn_no_integrity _ _ _ _ _ hexec
      subst he
      have : (sync_table none src tgt t).raised = some PyErr.other := by
        simp only [sync_table, hgm, hemp', Bool.false_eq_true, if_false, hexec,
          handleSyncError]
      rw [this] at hr
      cases hr
    | ok tgt2 =>
      have htgt2 : tgt2 = updatePublic (check_and_create_table src tgt t).1 t
          (insFold stab.cols tab
            (stab.rows.filter (fun r => !presentKeyedB tab stab.cols stab.pks r))) :=
        execute_values_dn_ok _ _ _ _ tab tgt2 htab hexec
      have hsync : (sync_table none src tgt t).target = tgt2 := by
        simp only [sync_table, hgm, hemp', Bool.false_eq_true, if_false, hexec]
      refine ⟨insFold stab.cols tab
          (stab.rows.filter (fun r => !presentKeyedB tab stab.cols stab.pks r)),
        ?_, (insFold_fields _ _ tab).1, (insFold_fields _ _ tab).2.1, ?_⟩
      · rw [hsync, htgt2]
        exact lookupPublic_updatePublic _ t tab _ htab
      · intro r hrr
        by_cases hp : presentKeyedB tab stab.cols stab.pks r = true
        · exact presentKeyedB_insFold_mono _ _ tab _ _ r hp
        · have hmem : r ∈ stab.rows.filter
              (fun r => !presentKeyedB tab stab.cols stab.pks r) :=
            List.mem_filter.2 ⟨hrr, by simp [hp]⟩
          exact insFold_present stab.cols stab.pks _ tab
            (fun k hk => List.mem_of_elem_eq_true (htpc k hk)) hpkc htpk r hmem
            (hnn r hrr)

/-! ## Claims -/

/-- C1: For every table `t` with a nonempty primary key (duplicate-free,
contained in the scanned column lists of both sides, with full-width rows,
non-null key values, and a target key no weaker than the source key — the
freshly created table, which has no key, satisfies the second disjunct),
if `sync_table` completes without raising then every row of the source
table is present in the target table keyed by its primary-key values: set
inclusion by primary key, with no requirement on insertion order. -/
theorem sync_table_source_rows_present (src tgt : DB) (t : String)
    (stab tab : DBTable)
    (ht : t ≠ "")
    (hsrc : lookupPublic src t = some stab)
    (hpk : stab.pks ≠ [])
    (hnd : stab.pks.Nodup)
    (hpkc : ∀ k ∈ stab.pks, stab.cols.contains k = true)
    (hlen : ∀ r ∈ stab.rows, r.length = stab.cols.length)
    (hnn : ∀ r ∈ stab.rows, ∀ k ∈ stab.pks, getCol stab.cols r k ≠ Value.null)
    (htab : lookupPublic (check_and_create_table src tgt t).1 t = some tab)
    (htpc : ∀ k ∈ stab.pks, tab.cols.contains k = true)
    (htpk : stab.pks ⊆ tab.pks ∨ tab.pks = [])
    (hr : (sync_table none src tgt t).raised = none) :
    ∃ tab2 : DBTable,
      lookupPublic (sync_table none src tgt t).target t = some tab2 ∧
      ∀ r ∈ stab.rows, presentKeyedB tab2 stab.cols stab.pks r = true := by
  rcases sync_table_presence src tgt t stab tab ht hsrc hpk hnd hpkc hlen hnn
    htab htpc htpk hr with ⟨tab2, h1, _, _, h4⟩
  exact ⟨tab2, h1, h4⟩

theorem sync_table_source_rows_present_witness :
    ∃ tab2 : DBTable,
      lookupPublic (sync_table none exSrc exTgt "users").target "users" =
        some tab2 ∧
      ∀ r ∈ usersTable.rows,
        presentKeyedB tab2 usersTable.cols usersTable.pks r = true :=
  sync_table_source_rows_present exSrc exTgt "users" usersTable
    (createTableFromSchema [("id", "integer"), ("name", "text")])
    (by decide) (by decide) (by decide) (by decide) (by decide) (by decide)
    (by decide) (by decide) (by decide) (Or.inr rfl) (by decide)

/-- C2: Under the same data-model invariants as the inclusion claim, after
a first `sync_table` run that completes without raising, a second run with
no intervening external writes finds the diff empty — `get_missing_rows`
returns an empty missing-row set (with the scanned column list) — and
inserts nothing: the second run returns the target unchanged, logging only
that the table exists and that there is nothing to sync. -/
theorem sync_table_idempotent (src tgt : DB) (t : String) (stab tab : DBTable)
    (ht : t ≠ "")
    (hsrc : lookupPublic src t = some stab)
    (hpk : stab.pks ≠ [])
    (hnd : stab.pks.Nodup)
    (hpkc : ∀ k ∈ stab.pks, stab.cols.contains k = true)
    (hlen : ∀ r ∈ stab.rows, r.length = stab.cols.length)
    (hnn : ∀ r ∈ stab.rows, ∀ k ∈ stab.pks, getCol stab.cols r k ≠ Value.null)
    (htab : lookupPublic (check_and_create_table src tgt t).1 t = some tab)
    (htpc : ∀ k ∈ stab.pks, tab.cols.contains k = true)
    (htpk : stab.pks ⊆ tab.pks ∨ tab.pks = [])
    (hr : (sync_table none src tgt t).raised = none) :
    get_missing_rows src (sync_table none src tgt t).target t =
      (Except.ok ([], stab.cols), []) ∧
    sync_table none src (sync_table none src tgt t).target t =
      ⟨(sync_table none src tgt t).target,
        [Log.infoTableExists t, Log.infoNoMissingRows t], none⟩ := by
  rcases sync_table_presence src tgt t stab tab ht hsrc hpk hnd hpkc hlen hnn
    htab htpc htpk hr with ⟨tab2, hlk, hcols, _, hpres⟩
  have htpc2 : ∀ k ∈ stab.pks, tab2.cols.contains k = true := by
    intro k hk
    rw [hcols]
    exact htpc k hk
  have hfilter : stab.rows.filter
      (fun r => !presentKeyedB tab2 stab.cols stab.pks r) = [] := by
    rw [List.filter_eq_nil_iff]
    intro r hrr
    simp [hpres r hrr]
  have hgm2 : get_missing_rows src (sync_table none src tgt t).target t =
      (Except.ok ([], stab.cols), []) := by
    have := get_missing_rows_spec src (sync_table none src tgt t).target t stab
      tab2 ht hsrc hpk hnd hpkc hlen hlk htpc2
    rwa [hfilter] at this
  have hchk : check_table_exists (sync_table none src tgt t).target t = true :=
    check_table_exists_of_lookup _ _ _ hlk
  have hcc : check_and_create_table src (sync_table none src tgt t).target t =
      ((sync_table none src tgt t).target, [Log.infoTableExists t]) := by
    simp [check_and_create_table, hchk]
  refine ⟨hgm2, ?_⟩
  generalize hT : (sync_table none src tgt t).target = T at hgm2 hcc ⊢
  simp only [sync_table, hcc, hgm2, List.isEmpty_nil, if_true]
  simp

theorem sync_table_idempotent_witness :
    get_missing_rows exSrc (sync_table none exSrc exTgt "users").target "users" =
      (Except.ok ([], usersTable.cols), []) ∧
    sync_table none exSrc (sync_table none exSrc exTgt "users").target "users" =
      ⟨(sync_table none exSrc exTgt "users").target,
        [Log.infoTableExists "users", Log.infoNoMissingRows "users"], none⟩ :=
  sync_table_idempotent exSrc exTgt "users" usersTable
    (createTableFromSchema [("id", "integer"), ("name", "text")])
    (by decide) (by decide) (by decide) (by decide) (by decide) (by decide)
    (by decide) (by decide) (by decide) (Or.inr rfl) (by decide)

/-- C3: For a table whose primary-key set is empty, the diff returns an
empty missing-row set and an empty column list while logging the
precondition error; `sync_table` then returns without raising (whatever
the database would have raised during an insert, since none is attempted),
leaving the target exactly as the creation step left it — so the target
table is still created from the source schema when absent, and no rows are
ever inserted into it by the engine. -/
theorem no_primary_key_sync (src tgt : DB) (t : String) (stab : DBTable)
    (oracle : Option PyErr)
    (hsrc : lookupPublic src t = some stab)
    (hpk : stab.pks = []) :
    get_missing_rows src tgt t =
      (Except.ok ([], []), [Log.errorNoPrimaryKeys t]) ∧
    sync_table oracle src tgt t =
      ⟨(check_and_create_table src tgt t).1,
        (check_and_create_table src tgt t).2 ++
          [Log.errorNoPrimaryKeys t, Log.infoNoMissingRows t], none⟩ ∧
    (check_table_exists tgt t = false →
      lookupPublic (sync_table oracle src tgt t).target t =
        some (createTableFromSchema (get_table_schema src t))) := by
  have hgm : ∀ db : DB, get_missing_rows src db t =
      (Except.ok ([], []), [Log.errorNoPrimaryKeys t]) := by
    intro db
    simp [get_missing_rows, fetch_primary_keys, hsrc, hpk]
  have hsync : sync_table oracle src tgt t =
      ⟨(check_and_create_table src tgt t).1,
        (check_and_create_table src tgt t).2 ++
          [Log.errorNoPrimaryKeys t, Log.infoNoMissingRows t], none⟩ := by
    simp only [sync_table, hgm, List.isEmpty_nil, if_true]
    simp
  refine ⟨hgm tgt, hsync, ?_⟩
  intro hchk
  rw [hsync]
  have hcc : check_and_create_table src tgt t =
      (DB.mk (tgt.tables ++
          [CatalogEntry.mk "public" t
            (createTableFromSchema (get_table_schema src t))]),
        [Log.infoCopiedSchema t]) := by
    simp [check_and_create_table, hchk]
  rw [hcc]
  exact lookupPublic_after_create tgt t _ hchk

theorem no_primary_key_sync_witness :
    get_missing_rows exSrcNoPk exTgt "t0" =
      (Except.ok ([], []), [Log.errorNoPrimaryKeys "t0"]) ∧
    sync_table (some PyErr.integrity) exSrcNoPk exTgt "t0" =
      ⟨(check_and_create_table exSrcNoPk exTgt "t0").1,
        (check_and_create_table exSrcNoPk exTgt "t0").2 ++
          [Log.errorNoPrimaryKeys "t0", Log.infoNoMissingRows "t0"], none⟩ ∧
    (check_table_exists exTgt "t0" = false →
      lookupPublic (sync_table (some PyErr.integrity) exSrcNoPk exTgt "t0").target
          "t0" =
        some (createTableFromSchema (get_table_schema exSrcNoPk "t0"))) :=
  no_primary_key_sync exSrcNoPk exTgt "t0" noPkTable (some PyErr.integrity)
    (by decide) (by decide)

/-- C4: When a table's sync reaches the bulk insert (a nonempty missing
set) and the database raises, the two exception classes part ways:
`IntegrityError` rolls the target back to the state committed by the
creation step, logs a warning, and returns without re-raising — so the
orchestrator's loop proceeds to the remaining tables; any other exception
rolls back likewise, logs the error, and re-raises — so the loop logs the
failure and stops, abandoning the remaining tables. -/
theorem sync_error_handling_paths (src tgt : DB) (t : String)
    (missing : List Row) (scols : List String) (logs2 : List Log)
    (hgm : get_missing_rows src (check_and_create_table src tgt t).1 t =
      (Except.ok (missing, scols), logs2))
    (hne : missing ≠ []) :
    sync_table (some PyErr.integrity) src tgt t =
      ⟨(check_and_create_table src tgt t).1,
        (check_and_create_table src tgt t).2 ++ logs2 ++ [Log.warnIntegrity t],
        none⟩ ∧
    sync_table (some PyErr.other) src tgt t =
      ⟨(check_and_create_table src tgt t).1,
        (check_and_create_table src tgt t).2 ++ logs2 ++ [Log.errorUnexpected t],
        some PyErr.other⟩ ∧
    (∀ (oracle : String → Option PyErr) (ts : List String) (logs0 : List Log),
      oracle t = some PyErr.integrity →
      syncTablesLoop oracle src tgt logs0 (t :: ts) =
        syncTablesLoop oracle src (check_and_create_table src tgt t).1
          (logs0 ++ ((check_and_create_table src tgt t).2 ++ logs2 ++
            [Log.warnIntegrity t])) ts) ∧
    (∀ (oracle : String → Option PyErr) (ts : List String) (logs0 : List Log),
      oracle t = some PyErr.other →
      syncTablesLoop oracle src tgt logs0 (t :: ts) =
        ⟨(check_and_create_table src tgt t).1,
          logs0 ++ ((check_and_create_table src tgt t).2 ++ logs2 ++
            [Log.errorUnexpected t]) ++ [Log.errorSyncAll],
          some PyErr.other⟩) := by
  have hemp : missing.isEmpty = false := by
    cases missing with
    | nil => exact absurd rfl hne
    | cons a as => rfl
  have h1 : sync_table (some PyErr.integrity) src tgt t =
      ⟨(check_and_create_table src tgt t).1,
        (check_and_create_table src tgt t).2 ++ logs2 ++ [Log.warnIntegrity t],
        none⟩ := by
    simp only [sync_table, hgm, hemp, Bool.false_eq_true, if_false,
      handleSyncError]
  have h2 : sync_table (some PyErr.other) src tgt t =
      ⟨(check_and_create_table src tgt t).1,
        (check_and_create_table src tgt t).2 ++ logs2 ++ [Log.errorUnexpected t],
        some PyErr.other⟩ := by
    simp only [sync_table, hgm, hemp, Bool.false_eq_true, if_false,
      handleSyncError]
  refine ⟨h1, h2, ?_, ?_⟩
  · intro oracle ts logs0 hor
    simp only [syncTablesLoop, hor, h1]
  · intro oracle ts logs0 hor
    simp only [syncTablesLoop, hor, h2]

theorem sync_error_handling_paths_witness :
    sync_table (some PyErr.integrity) exSrc exTgt "users" =
      ⟨(check_and_create_table exSrc exTgt "users").1,
        (check_and_create_table exSrc exTgt "users").2 ++ [] ++
          [Log.warnIntegrity "users"],
        none⟩ ∧
    sync_table (some PyErr.other) exSrc exTgt "users" =
      ⟨(check_and_create_table exSrc exTgt "users").1,
        (check_and_create_table exSrc exTgt "users").2 ++ [] ++
          [Log.errorUnexpected "users"],
        some PyErr.other⟩ ∧
    (∀ (oracle : String → Option PyErr) (ts : List String) (logs0 : List Log),
      oracle "users" = some PyErr.integrity →
      syncTablesLoop oracle exSrc exTgt logs0 ("users" :: ts) =
        syncTablesLoop oracle exSrc (check_and_create_table exSrc exTgt "users").1
          (logs0 ++ ((check_and_create_table exSrc exTgt "users").2 ++ [] ++
            [Log.warnIntegrity "users"])) ts) ∧
    (∀ (oracle : String → Option PyErr) (ts : List String) (logs0 : List Log),
      oracle "users" = some PyErr.other →
      syncTablesLoop oracle exSrc exTgt logs0 ("users" :: ts) =
        ⟨(check_and_create_table exSrc exTgt "users").1,
          logs0 ++ ((check_and_create_table exSrc exTgt "users").2 ++ [] ++
            [Log.errorUnexpected "users"]) ++ [Log.errorSyncAll],
          some PyErr.other⟩) :=
  sync_error_handling_paths exSrc exTgt "users"
    [[Value.int 1, Value.int 10], [Value.int 2, Value.int 20]] ["id", "name"] []
    rfl (by decide)

/-- C5: The bulk insert statement always carries `ON CONFLICT DO NOTHING`,
and under it a target row `tr` that already occupies primary key `k` is
never overwritten: when the source also holds a row `sr` with the same key
(and `sr` is the only such source row), running the sync leaves the
target's rows for that key exactly as they were — the prior rows survive
in place, only fresh rows are appended, and none of the appended rows
carries `tr`'s key. -/
theorem conflict_row_unchanged (src tgt : DB) (t : String) (stab tab : DBTable)
    (tr sr : Row)
    (ht : t ≠ "")
    (hsrc : lookupPublic src t = some stab)
    (hpk : stab.pks ≠ [])
    (hnd : stab.pks.Nodup)
    (hpkc : ∀ k ∈ stab.pks, stab.cols.contains k = true)
    (hlen : ∀ r ∈ stab.rows, r.length = stab.cols.length)
    (htab : lookupPublic (check_and_create_table src tgt t).1 t = some tab)
    (htpc : ∀ k ∈ stab.pks, tab.cols.contains k = true)
    (htr : tr ∈ tab.rows)
    (hsr : sr ∈ stab.rows)
    (hmatch : ∀ k ∈ stab.pks,
      sqlEq (getCol tab.cols tr k) (getCol stab.cols sr k) = true)
    (huniq : ∀ r ∈ stab.rows,
      (∀ k ∈ stab.pks, getCol stab.cols r k = getCol stab.cols sr k) → r = sr)
    (hr : (sync_table none src tgt t).raised = none) :
    (∀ (tn : String) (cs : List String),
      (insert_missing_rows tn cs).onConflictDoNothing = true) ∧
    ∃ (tab2 : DBTable) (ext : List Row),
      lookupPublic (sync_table none src tgt t).target t = some tab2 ∧
      tab2.cols = tab.cols ∧
      tab2.rows = tab.rows ++ ext ∧
      tab2.rows.filter (fun x => pkMatchB tab.cols stab.pks x tr) =
        tab.rows.filter (fun x => pkMatchB tab.cols stab.pks x tr) := by
  refine ⟨fun _ _ => rfl, ?_⟩
  have hpres_sr : presentKeyedB tab stab.cols stab.pks sr = true := by
    unfold presentKeyedB
    rw [List.any_eq_true]
    exact ⟨tr, htr, List.all_eq_true.2 hmatch⟩
  have hgm := get_missing_rows_spec src (check_and_create_table src tgt t).1 t
    stab tab ht hsrc hpk hnd hpkc hlen htab htpc
  by_cases hemp : (stab.rows.filter
      (fun r => !presentKeyedB tab stab.cols stab.pks r)).isEmpty = true
  · have hsync : sync_table none src tgt t =
        ⟨(check_and_create_table src tgt t).1,
          (check_and_create_table src tgt t).2 ++ [] ++
            [Log.infoNoMissingRows t], none⟩ := by
      simp only [sync_table, hgm, hemp, if_true]
    refine ⟨tab, [], ?_, rfl, (List.append_nil tab.rows).symm, rfl⟩
    rw [hsync]
    exact htab
  · have hemp' : (stab.rows.filter
        (fun r => !presentKeyedB tab stab.cols stab.pks r)).isEmpty = false :=
      Bool.eq_false_iff.2 hemp
    cases hexec : execute_values (check_and_create_table src tgt t).1
        (insert_missing_rows t stab.cols)
        (stab.rows.filter (fun r => !presentKeyedB tab stab.cols stab.pks r)) with
    | error e =>
      exfalso
      have he : e = PyErr.other :=
        execute_values_dn_no_integrity _ _ _ _ _ hexec
      subst he
      have : (sync_table none src tgt t).raised = some PyErr.other := by
        simp only [sync_table, hgm, hemp', Bool.false_eq_true, if_false, hexec,
          handleSyncError]
      rw [this] at hr
      cases hr
    | ok tgt2 =>
      have htgt2 : tgt2 = updatePublic (check_and_create_table src tgt t).1 t
          (insFold stab.cols tab
            (stab.rows.filter (fun r => !presentKeyedB tab stab.cols stab.pks r))) :=
        execute_values_dn_ok _ _ _ _ tab tgt2 htab hexec
      have hsync : (sync_table none src tgt t).target = tgt2 := by
        simp only [sync_table, hgm, hemp', Bool.false_eq_true, if_false, hexec]
      rcases insFold_rows stab.cols
          (stab.rows.filter (fun r => !presentKeyedB tab stab.cols stab.pks r))
          tab with ⟨ext, hrows, hsrcs⟩
      have hextnil : ext.filter (fun x => pkMatchB tab.cols stab.pks x tr) = [] := by
        rw [List.filter_eq_nil_iff]
        intro x hx hmat
        rcases hsrcs x hx with ⟨m, hm, hxm⟩
        have hmem := List.mem_filter.1 hm
        have hmsr : m = sr := by
          refine huniq m hmem.1 ?_
          intro k hk
          have hxk : getCol tab.cols x k = getCol stab.cols m k := by
            rw [hxm]
            exact getCol_alignRow stab.cols tab.cols m k
              (List.mem_of_elem_eq_true (htpc k hk)) (hpkc k hk)
          have h1 : sqlEq (getCol tab.cols x k) (getCol tab.cols tr k) = true :=
            List.all_eq_true.1 hmat k hk
          have h2 := hmatch k hk
          rcases (sqlEq_iff _ _).1 h1 with ⟨n, hxn, htrn⟩
          rcases (sqlEq_iff _ _).1 h2 with ⟨n', htrn', hsrn'⟩
          have hnn' : n = n' := by
            rw [htrn] at htrn'
            injection htrn'
          rw [← hxk, hxn, hsrn', hnn']
        rw [hmsr] at hmem
        rw [hpres_sr] at hmem
        simp at hmem
      refine ⟨insFold stab.cols tab
          (stab.rows.filter (fun r => !presentKeyedB tab stab.cols stab.pks r)),
        ext, ?_, (insFold_fields _ _ tab).1, hrows, ?_⟩
      · rw [hsync, htgt2]
        exact lookupPublic_updatePublic _ t tab _ htab
      · rw [hrows, List.filter_append, hextnil, List.append_nil]

theorem conflict_row_unchanged_witness :
    (∀ (tn : String) (cs : List String),
      (insert_missing_rows tn cs).onConflictDoNothing = true) ∧
    ∃ (tab2 : DBTable) (ext : List Row),
      lookupPublic (sync_table none exSrc exTgtPre "users").target "users" =
        some tab2 ∧
      tab2.cols = ["id", "name"] ∧
      tab2.rows = [[Value.int 1, Value.int 99]] ++ ext ∧
      tab2.rows.filter (fun x => pkMatchB ["id", "name"] ["id"] x
          [Value.int 1, Value.int 99]) =
        ([[Value.int 1, Value.int 99]] : List Row).filter
          (fun x => pkMatchB ["id", "name"] ["id"] x
            [Value.int 1, Value.int 99]) :=
  conflict_row_unchanged exSrc exTgtPre "users" usersTable
    { schema := [("id", "integer"), ("name", "text")]
      cols := ["id", "name"]
      rows := [[Value.int 1, Value.int 99]]
      pks := ["id"] }
    [Value.int 1, Value.int 99] [Value.int 1, Value.int 10]
    (by decide) (by decide) (by decide) (by decide) (by decide) (by decide)
    (by decide) (by decide) (by decide) (by decide) (by decide) (by decide)
    (by decide)

theorem lookupPublic_entry (db : DB) (t : String) (tab : DBTable)
    (h : lookupPublic db t = some tab) :
    ∃ e ∈ db.tables,
      e.table_schema = "public" ∧ e.table_name = t ∧ e.tab = tab := by
  unfold lookupPublic at h
  cases hf : db.tables.find? (fun e =>
      e.table_schema == "public" && e.table_name == t) with
  | none => rw [hf] at h; cases h
  | some e =>
    rw [hf] at h
    have h' : e.tab = tab := by
      simpa using h
    have hmem := List.mem_of_find?_eq_some hf
    have hpred := List.find?_some hf
    rw [Bool.and_eq_true] at hpred
    exact ⟨e, hmem, by simpa using hpred.1, by simpa using hpred.2, h'⟩

theorem updatePublic_entries (db : DB) (t : String) (tb : DBTable) :
    ∀ e ∈ (updatePublic db t tb).tables,
      e ∈ db.tables ∨
      ∃ e0 ∈ db.tables,
        e0.table_schema = "public" ∧ e0.table_name = t ∧
        e = { e0 with tab := tb } := by
  intro e he
  unfold updatePublic at he
  rcases List.mem_map.1 he with ⟨e0, he0, hupd⟩
  have hupd' : (if (e0.table_schema == "public" && e0.table_name == t) = true
      then { e0 with tab := tb } else e0) = e := hupd
  by_cases hp : (e0.table_schema == "public" && e0.table_name == t) = true
  · right
    rw [if_pos hp] at hupd'
    rw [Bool.and_eq_true] at hp
    exact ⟨e0, he0, by simpa using hp.1, by simpa using hp.2, hupd'.symm⟩
  · left
    rw [if_neg hp] at hupd'
    rw [← hupd']
    exact he0

/-- Whatever happens inside one `sync_table` call, the committed target is
either exactly the creation step's output or that state with the resolved
table's rows extended by a batch insert. -/
theorem sync_table_target_shape (oracle : Option PyErr) (src tgt : DB)
    (t : String) :
    (sync_table oracle src tgt t).target = (check_and_create_table src tgt t).1 ∨
    ∃ (tab : DBTable) (cols : List String) (rows : List Row),
      lookupPublic (check_and_create_table src tgt t).1 t = some tab ∧
      (sync_table oracle src tgt t).target =
        updatePublic (check_and_create_table src tgt t).1 t
          (insFold cols tab rows) := by
  cases hgm : get_missing_rows src (check_and_create_table src tgt t).1 t with
  | mk res logs2 =>
    cases res with
    | error e =>
      left
      cases e <;> simp [sync_table, hgm, handleSyncError]
    | ok p =>
      rcases p with ⟨missing, scols⟩
      by_cases hemp : missing.isEmpty = true
      · left
        simp only [sync_table, hgm, hemp, if_true]
      · have hemp' : missing.isEmpty = false := Bool.eq_false_iff.2 hemp
        cases oracle with
        | some e =>
          left
          cases e <;> simp [sync_table, hgm, hemp', handleSyncError]
        | none =>
          cases hexec : execute_values (check_and_create_table src tgt t).1
              (insert_missing_rows t scols) missing with
          | error e =>
            left
            cases e <;> simp [sync_table, hgm, hemp', hexec, handleSyncError]
          | ok tgt2 =>
            cases htab : lookupPublic (check_and_create_table src tgt t).1 t with
            | none =>
              exfalso
              simp only [execute_values, insert_missing_rows, htab] at hexec
              exact Except.noConfusion hexec
            | some tab =>
              right
              refine ⟨tab, scols, missing, rfl, ?_⟩
              have hok := execute_values_dn_ok _ _ _ _ tab tgt2 htab hexec
              simp only [sync_table, hgm, hemp', Bool.false_eq_true, if_false,
                hexec]
              exact hok

/-- C6: `check_and_create_table` creates the table exactly when the
existence check reports it absent: when present, it takes no action beyond
a log line; when absent, it appends to the target a public table whose
CREATE statement lists verbatim the (column name, data type) pairs the
source catalog reports, with those names as its columns and nothing else.
Moreover, across a whole `sync_table` call, every table of the resulting
target either already existed (same namespace, name and column/type list)
or is the one created verbatim from the source-reported list — a table is
never created any other way. -/
theorem create_table_fidelity (src tgt : DB) (t : String) :
    (check_table_exists tgt t = true →
      check_and_create_table src tgt t = (tgt, [Log.infoTableExists t])) ∧
    (check_table_exists tgt t = false →
      check_and_create_table src tgt t =
        (DB.mk (tgt.tables ++
          [CatalogEntry.mk "public" t
            (createTableFromSchema (get_table_schema src t))]),
          [Log.infoCopiedSchema t])) ∧
    (createTableFromSchema (get_table_schema src t)).schema =
      get_table_schema src t ∧
    (createTableFromSchema (get_table_schema src t)).cols =
      (get_table_schema src t).map (fun c => c.1) ∧
    ∀ (oracle : Option PyErr) (e : CatalogEntry),
      e ∈ (sync_table oracle src tgt t).target.tables →
      (e.table_schema, e.table_name, e.tab.schema) ∈
        tgt.tables.map (fun x => (x.table_schema, x.table_name, x.tab.schema)) ∨
      (e.table_schema = "public" ∧ e.table_name = t ∧
        e.tab.schema = get_table_schema src t) := by
  have hentry : ∀ e ∈ (check_and_create_table src tgt t).1.tables,
      e ∈ tgt.tables ∨
      (e.table_schema = "public" ∧ e.table_name = t ∧
        e.tab.schema = get_table_schema src t) := by
    intro e he
    by_cases hchk : check_table_exists tgt t = true
    · left
      simp only [check_and_create_table, hchk, if_true] at he
      exact he
    · have hchk' : check_table_exists tgt t = false := Bool.eq_false_iff.2 hchk
      simp only [check_and_create_table, hchk', Bool.false_eq_true,
        if_false] at he
      rcases List.mem_append.1 he with h1 | h1
      · exact Or.inl h1
      · right
        simp only [List.mem_singleton] at h1
        rw [h1]
        exact ⟨rfl, rfl, rfl⟩
  refine ⟨?_, ?_, rfl, rfl, ?_⟩
  · intro h
    simp [check_and_create_table, h]
  · intro h
    simp [check_and_create_table, h]
  · intro oracle e he
    rcases sync_table_target_shape oracle src tgt t with hsh |
        ⟨tab, cols, rows, htab, hsh⟩
    · rw [hsh] at he
      rcases hentry e he with h1 | h1
      · exact Or.inl (List.mem_map.2 ⟨e, h1, rfl⟩)
      · exact Or.inr h1
    · rw [hsh] at he
      rcases updatePublic_entries _ t _ e he with h1 | ⟨e0, he0, hs0, hn0, hee⟩
      · rcases hentry e h1 with h2 | h2
        · exact Or.inl (List.mem_map.2 ⟨e, h2, rfl⟩)
        · exact Or.inr h2
      · have hesch : e.tab.schema = tab.schema := by
          rw [hee]
          exact (insFold_fields cols rows tab).2.2
        rcases lookupPublic_entry _ t tab htab with ⟨e1, he1, hs1, hn1, htab1⟩
        rcases hentry e1 he1 with h2 | h2
        · left
          rw [List.mem_map]
          refine ⟨e1, h2, ?_⟩
          rw [hee]
          simp [hs1, hn1, htab1, hs0, hn0, (insFold_fields cols rows tab).2.2]
        · right
          refine ⟨by rw [hee]; exact hs0, by rw [hee]; exact hn0, ?_⟩
          rw [hesch, ← htab1]
          exact h2.2.2

theorem create_table_fidelity_witness :
    (check_table_exists exTgt "users" = true →
      check_and_create_table exSrc exTgt "users" =
        (exTgt, [Log.infoTableExists "users"])) ∧
    (check_table_exists exTgt "users" = false →
      check_and_create_table exSrc exTgt "users" =
        (DB.mk (exTgt.tables ++
          [CatalogEntry.mk "public" "users"
            (createTableFromSchema (get_table_schema exSrc "users"))]),
          [Log.infoCopiedSchema "users"])) ∧
    (createTableFromSchema (get_table_schema exSrc "users")).schema =
      get_table_schema exSrc "users" ∧
    (createTableFromSchema (get_table_schema exSrc "users")).cols =
      (get_table_schema exSrc "users").map (fun c => c.1) ∧
    ∀ (oracle : Option PyErr) (e : CatalogEntry),
      e ∈ (sync_table oracle exSrc exTgt "users").target.tables →
      (e.table_schema, e.table_name, e.tab.schema) ∈
        exTgt.tables.map (fun x => (x.table_schema, x.table_name, x.tab.schema)) ∨
      (e.table_schema = "public" ∧ e.table_name = "users" ∧
        e.tab.schema = get_table_schema exSrc "users") :=
  create_table_fidelity exSrc exTgt "users"

/-- C7: The probe's WHERE clause is `TRUE` for an empty key set and
otherwise the conjunction of one equality per primary-key column; the
probe's parameters are each key's value read positionally from the row at
the key's index in the scanned column list (the dict comprehension); a row
whose probe finds nothing is kept, and the resulting missing-row set is a
sublist of the source rows — the scan order is preserved. -/
theorem probe_where_clause_spec (src tgt : DB) (t : String) (stab tab : DBTable)
    (ht : t ≠ "")
    (hsrc : lookupPublic src t = some stab)
    (hpk : stab.pks ≠ [])
    (hnd : stab.pks.Nodup)
    (hpkc : ∀ k ∈ stab.pks, stab.cols.contains k = true)
    (hlen : ∀ r ∈ stab.rows, r.length = stab.cols.length)
    (htab : lookupPublic tgt t = some tab)
    (htpc : ∀ k ∈ stab.pks, tab.cols.contains k = true) :
    construct_where_clause [] = WhereClause.trueW ∧
    construct_where_clause stab.pks = WhereClause.conjEq stab.pks ∧
    (∀ r ∈ stab.rows, buildPkDict stab.cols r stab.pks =
      Except.ok (stab.pks.map (fun k => (k, getCol stab.cols r k)))) ∧
    get_missing_rows src tgt t =
      (Except.ok (stab.rows.filter
        (fun r => !presentKeyedB tab stab.cols stab.pks r), stab.cols), []) ∧
    List.Sublist (stab.rows.filter
      (fun r => !presentKeyedB tab stab.cols stab.pks r)) stab.rows := by
  have hne : stab.pks.isEmpty = false := by
    cases h : stab.pks with
    | nil => exact absurd h hpk
    | cons a as => rfl
  refine ⟨rfl, by simp [construct_where_clause, hne], ?_, ?_, ?_⟩
  · intro r hr
    refine buildPkDict_spec stab.cols r stab.pks hnd ?_
    intro k hk
    refine ⟨hpkc k hk, ?_⟩
    rw [hlen r hr]
    exact List.indexOf_lt_length.2 (List.mem_of_elem_eq_true (hpkc k hk))
  · exact get_missing_rows_spec src tgt t stab tab ht hsrc hpk hnd hpkc hlen
      htab htpc
  · exact List.filter_sublist stab.rows

theorem probe_where_clause_spec_witness :
    construct_where_clause [] = WhereClause.trueW ∧
    construct_where_clause usersTable.pks = WhereClause.conjEq usersTable.pks ∧
    (∀ r ∈ usersTable.rows, buildPkDict usersTable.cols r usersTable.pks =
      Except.ok (usersTable.pks.map (fun k => (k, getCol usersTable.cols r k)))) ∧
    get_missing_rows exSrc exTgtPre "users" =
      (Except.ok (usersTable.rows.filter
        (fun r => !presentKeyedB
          { schema := [("id", "integer"), ("name", "text")]
            cols := ["id", "name"]
            rows := [[Value.int 1, Value.int 99]]
            pks := ["id"] } usersTable.cols usersTable.pks r),
        usersTable.cols), []) ∧
    List.Sublist (usersTable.rows.filter
      (fun r => !presentKeyedB
        { schema := [("id", "integer"), ("name", "text")]
          cols := ["id", "name"]
          rows := [[Value.int 1, Value.int 99]]
          pks := ["id"] } usersTable.cols usersTable.pks r)) usersTable.rows :=
  probe_where_clause_spec exSrc exTgtPre "users" usersTable
    { schema := [("id", "integer"), ("name", "text")]
      cols := ["id", "name"]
      rows := [[Value.int 1, Value.int 99]]
      pks := ["id"] }
    (by decide) (by decide) (by decide) (by decide) (by decide) (by decide)
    (by decide) (by decide)

/-- C8 counterexample: the claim says both connections are explicitly
released at the end of the run on every exit path.  In the program's entry
point, every exit path executes a prefix of `mainActions`, and no step of
it is the `close_connections` call — `main` never invokes it, so the
connections are not explicitly released on any path. -/
theorem main_never_calls_close :
    MainAction.closeConnections ∉ mainActions := by
  decide

/-- C8 amended: `close_connections`, when invoked, closes both
connections (source first, then target); but `main` never invokes it on
any exit path — its action trace contains no `close_connections` step —
so the run's connections are not explicitly released by the program. -/
theorem close_connections_amended :
    (∀ c : Connections, (close_connections c).source_open = false ∧
      (close_connections c).target_open = false) ∧
    MainAction.closeConnections ∉ mainActions := by
  exact ⟨fun c => ⟨rfl, rfl⟩, by decide⟩

/-- C9: the existence check's catalog query filters on `table_name` only,
so it reports a table as existing whenever any namespace of the target
holds a table of that name; consequently a same-named table in a
non-public namespace suppresses creation of the public table. -/
theorem table_exists_ignores_schema (db : DB) (t : String) :
    (check_table_exists db t = true ↔ ∃ e ∈ db.tables, e.table_name = t) ∧
    ∀ (src : DB) (e : CatalogEntry), e ∈ db.tables → e.table_name = t →
      check_and_create_table src db t = (db, [Log.infoTableExists t]) := by
  constructor
  · unfold check_table_exists
    rw [List.any_eq_true]
    constructor
    · rintro ⟨e, he, hb⟩
      exact ⟨e, he, by simpa using hb⟩
    · rintro ⟨e, he, hb⟩
      exact ⟨e, he, by simpa using hb⟩
  · intro src e he hn
    have hchk : check_table_exists db t = true := by
      unfold check_table_exists
      rw [List.any_eq_true]
      exact ⟨e, he, by simpa using hn⟩
    simp [check_and_create_table, hchk]

theorem table_exists_ignores_schema_witness :
    check_table_exists exTgtAudit "users" = true ∧
    check_and_create_table exSrc exTgtAudit "users" =
      (exTgtAudit, [Log.infoTableExists "users"]) :=
  ⟨(table_exists_ignores_schema exTgtAudit "users").1.2
      ⟨CatalogEntry.mk "audit" "users" usersTable, by decide, rfl⟩,
    (table_exists_ignores_schema exTgtAudit "users").2 exSrc
      (CatalogEntry.mk "audit" "users" usersTable) (by decide) rfl⟩

theorem check_and_create_table_logs (src tgt : DB) (t : String) :
    (check_and_create_table src tgt t).2 = [Log.infoTableExists t] ∨
    (check_and_create_table src tgt t).2 = [Log.infoCopiedSchema t] := by
  unfold check_and_create_table
  by_cases h : check_table_exists tgt t = true
  · rw [if_pos h]
    exact Or.inl rfl
  · rw [if_neg h]
    exact Or.inr rfl

theorem get_missing_rows_logs (src tgt : DB) (t : String) :
    (get_missing_rows src tgt t).2 = [] ∨
    (get_missing_rows src tgt t).2 = [Log.errorNoPrimaryKeys t] := by
  cases hf : fetch_primary_keys src t with
  | error e => simp [get_missing_rows, hf]
  | ok pks =>
    by_cases hp : pks.isEmpty = true
    · simp [get_missing_rows, hf, hp]
    · have hp' : pks.isEmpty = false := Bool.eq_false_iff.2 hp
      cases hs : select_all_rows src t with
      | error e => simp [get_missing_rows, hf, hp', hs]
      | ok p =>
        rcases p with ⟨srows, scols⟩
        cases hm : missingLoop tgt t scols pks srows with
        | error e => simp [get_missing_rows, hf, hp', hs, hm]
        | ok missing => simp [get_missing_rows, hf, hp', hs, hm]

/-- C10: a table newly created by the creation step is committed in its
own transaction before diffing and inserting begin, so when the same
table's sync later fails — either class of exception, which rolls the
per-table transaction back — the created (and still empty) table persists
in the target. -/
theorem created_table_survives_rollback (src tgt : DB) (t : String)
    (oracle : Option PyErr)
    (hchk : check_table_exists tgt t = false)
    (hfail : (sync_table oracle src tgt t).raised ≠ none ∨
      Log.warnIntegrity t ∈ (sync_table oracle src tgt t).logs) :
    lookupPublic (sync_table oracle src tgt t).target t =
      some (createTableFromSchema (get_table_schema src t)) ∧
    (createTableFromSchema (get_table_schema src t)).rows = [] := by
  have hcc : check_and_create_table src tgt t =
      (DB.mk (tgt.tables ++
        [CatalogEntry.mk "public" t
          (createTableFromSchema (get_table_schema src t))]),
        [Log.infoCopiedSchema t]) := by
    simp [check_and_create_table, hchk]
  have hlk : lookupPublic (check_and_create_table src tgt t).1 t =
      some (createTableFromSchema (get_table_schema src t)) := by
    rw [hcc]
    exact lookupPublic_after_create tgt t _ hchk
  refine ⟨?_, rfl⟩
  have htshape : (sync_table oracle src tgt t).target =
      (check_and_create_table src tgt t).1 := by
    cases hgm : get_missing_rows src (check_and_create_table src tgt t).1 t with
    | mk res logs2 =>
      cases res with
      | error e => cases e <;> simp [sync_table, hgm, handleSyncError]
      | ok p =>
        rcases p with ⟨missing, scols⟩
        by_cases hemp : missing.isEmpty = true
        · simp [sync_table, hgm, hemp]
        · have hemp' : missing.isEmpty = false := Bool.eq_false_iff.2 hemp
          cases oracle with
          | some e =>
            cases e <;> simp [sync_table, hgm, hemp', handleSyncError]
          | none =>
            cases hexec : execute_values (check_and_create_table src tgt t).1
                (insert_missing_rows t scols) missing with
            | error e =>
              cases e <;> simp [sync_table, hgm, hemp', hexec, handleSyncError]
            | ok tgt2 =>
              exfalso
              have hl2 : logs2 = [] ∨ logs2 = [Log.errorNoPrimaryKeys t] := by
                have := get_missing_rows_logs src
                  (check_and_create_table src tgt t).1 t
                rwa [hgm] at this
              rcases hfail with hf | hf
              · simp [sync_table, hgm, hemp', hexec] at hf
              · rcases check_and_create_table_logs src tgt t with hl | hl <;>
                  rcases hl2 with hl2 | hl2 <;>
                  simp [sync_table, hgm, hemp', hexec, hl, hl2] at hf
  rw [htshape]
  exact hlk

theorem created_table_survives_rollback_witness :
    lookupPublic (sync_table (some PyErr.other) exSrc exTgt "users").target
        "users" =
      some (createTableFromSchema (get_table_schema exSrc "users")) ∧
    (createTableFromSchema (get_table_schema exSrc "users")).rows = [] :=
  created_table_survives_rollback exSrc exTgt "users" (some PyErr.other)
    (by decide) (Or.inl (by decide))

end SyncDB
